import Mathlib

/-!
# Hazelnut caching reverse proxy — verification development

Shallow embedding of the request-handling and caching pipeline of the
hazelnut caching reverse proxy (Go), together with theorems settling the
specification claims about it.

The embedding covers:
* the Go string primitives the code relies on (`strings.TrimSpace`,
  `strings.Split`, `strings.HasPrefix`/`TrimPrefix`, `strconv.Atoi`),
* the header map model (`net/http.Header` with `Get`, `Add`, `Del` and
  MIME canonical keys),
* both copies of `calculateTTL` (the frontend copy and the cache-store
  copy, which differ in their numeric sentinels),
* the `Expires` date parsing (`time.Parse` with the RFC1123, RFC1123Z,
  RFC850 and ANSIC layouts, including the parse-only fractional second
  and the full zone-abbreviation grammar, unknown abbreviations
  resolved to offset 0 as `time.Parse` does without location data),
* SHA-256 and the cache-key derivation `MakeKey`,
* the backend client's `Fetch` with its synthetic `nuts` fallback,
* the frontend dispatcher (`ServeHTTP`, `cacheable`, `defaultMethod`)
  as a pure function of the request method, the cache-lookup result and
  the backend fetch outcome,
* a model of the bounded cost/object-count cache store.
-/

namespace Hazelnut

/-! ## Go string primitives -/

/-- Whitespace predicate of Go's `unicode.IsSpace`, used by
`strings.TrimSpace`: '\t', '\n', '\v', '\f', '\r', ' ', U+0085, U+00A0
and the Unicode White_Space code points. -/
def isGoSpace (c : Char) : Bool :=
  let v := c.toNat
  (9 ≤ v && v ≤ 13) || v = 32 || v = 0x85 || v = 0xA0 || v = 0x1680 ||
  (0x2000 ≤ v && v ≤ 0x200A) || v = 0x2028 || v = 0x2029 || v = 0x202F ||
  v = 0x205F || v = 0x3000

/-- Go `strings.TrimSpace`: drop leading and trailing whitespace. -/
def goTrimSpace (s : String) : String :=
  ⟨((s.data.dropWhile isGoSpace).reverse.dropWhile isGoSpace).reverse⟩

/-- Helper for `goSplitComma`: split a character list at commas,
accumulating the current piece in reverse. -/
def splitCommaAux : List Char → List Char → List String
  | [], acc => [⟨acc.reverse⟩]
  | c :: rest, acc =>
      if c = ',' then ⟨acc.reverse⟩ :: splitCommaAux rest []
      else splitCommaAux rest (c :: acc)

/-- Go `strings.Split(s, ",")` (single-character separator): the list of
pieces between commas, empty pieces included. -/
def goSplitComma (s : String) : List String :=
  splitCommaAux s.data []

/-- Character-list version of Go `strings.HasPrefix`. -/
def listStarts : List Char → List Char → Bool
  | [], _ => true
  | _ :: _, [] => false
  | p :: ps, c :: cs => p = c && listStarts ps cs

/-- Go `strings.HasPrefix s pre`. -/
def strStarts (s pre : String) : Bool :=
  listStarts pre.data s.data

/-- Go `strings.TrimPrefix s pre` in the guarded form the source uses
(always called right after a successful `HasPrefix` check). -/
def strDropStart (s pre : String) : String :=
  ⟨s.data.drop pre.data.length⟩

/-- Digit-run accumulator for `goAtoi`: `none` unless every character is
a decimal digit. -/
def digitsValAux : List Char → Nat → Option Nat
  | [], acc => some acc
  | c :: rest, acc =>
      if c.isDigit then digitsValAux rest (acc * 10 + (c.toNat - 48))
      else none

/-- Shared body of `goAtoi` after the optional sign: at least one digit,
all digits, and the signed value must fit in a 64-bit int (Go returns
`ErrRange` otherwise, which the callers treat as failure). -/
def goAtoiCore (sign : Int) (ds : List Char) : Option Int :=
  match ds with
  | [] => none
  | _ :: _ =>
    match digitsValAux ds 0 with
    | none => none
    | some n =>
      let v : Int := sign * (n : Int)
      if -(2 ^ 63) ≤ v ∧ v ≤ 2 ^ 63 - 1 then some v else none

/-- Go `strconv.Atoi`: optional sign, decimal digits, 64-bit range. -/
def goAtoi (s : String) : Option Int :=
  match s.data with
  | '+' :: rest => goAtoiCore 1 rest
  | '-' :: rest => goAtoiCore (-1) rest
  | ds => goAtoiCore 1 ds

/-- Two's-complement wraparound of a 64-bit signed integer, modelling Go
`int64` overflow. -/
def wrap64 (x : Int) : Int :=
  (x + 2 ^ 63) % 2 ^ 64 - 2 ^ 63

/-- Go `time.Duration(n) * time.Second`: `n` seconds in nanoseconds,
with `int64` wraparound. -/
def durSeconds (n : Int) : Int :=
  wrap64 (n * 1000000000)

/-! ## Header map model (`net/http.Header`) -/

/-- An `http.Header` is a map from canonical header names to value
lists; modelled as an association list with distinct keys.  Keys stored
through `Add`/`Set` are always in MIME canonical form. -/
abbrev Header := List (String × List String)

/-- Go `http.Header.Get` for an already-canonical key: first value of
the matching entry, `""` when absent or empty. -/
def hGet : Header → String → String
  | [], _ => ""
  | (k, vs) :: rest, key => if k = key then vs.headD "" else hGet rest key

/-- Lowercase an ASCII letter (other characters unchanged). -/
def lowerChar (c : Char) : Char :=
  if 'A' ≤ c ∧ c ≤ 'Z' then Char.ofNat (c.toNat + 32) else c

/-- Uppercase an ASCII letter (other characters unchanged). -/
def upperChar (c : Char) : Char :=
  if 'a' ≤ c ∧ c ≤ 'z' then Char.ofNat (c.toNat - 32) else c

/-- Helper for `canonicalKey`: uppercase the first letter and each
letter following a '-', lowercase the rest. -/
def canonAux : Bool → List Char → List Char
  | _, [] => []
  | up, c :: rest =>
      (if up then upperChar c else lowerChar c) :: canonAux (c = '-') rest

/-- Go `textproto.CanonicalMIMEHeaderKey` for valid header tokens. -/
def canonicalKey (s : String) : String :=
  ⟨canonAux true s.data⟩

/-- Go `http.Header.Del`: remove the entry for the canonical key. -/
def hDel (h : Header) (k : String) : Header :=
  h.filter (fun p => p.1 ≠ canonicalKey k)

/-- Go `http.Header.Add`: append a value to the canonical key's entry,
creating the entry if absent. -/
def hAdd : Header → String → String → Header
  | [], k, v => [(canonicalKey k, [v])]
  | (k0, vs) :: rest, k, v =>
      if k0 = canonicalKey k then (k0, vs ++ [v]) :: rest
      else (k0, vs) :: hAdd rest k v

/-! ## Cache-Control directive scan

Both copies of `calculateTTL` iterate over the comma-separated
directives of the `Cache-Control` header and return from inside the
loop on the first directive that matches one of the branches.  The two
copies differ only in the numeric sentinels they return for the
"do not cache" directives (`0` in the frontend copy, `-1` in the
cache-store copy). -/

/-- One iteration of the frontend's directive loop
(`frontend.calculateTTL`): the value returned from inside the loop at
this directive, or `none` when the loop continues.  `no-store`,
`private` and `no-cache` return the frontend's "do not cache" sentinel
`0`; a `s-maxage=`/`max-age=` directive with a parseable positive
number returns that many seconds. -/
def directiveHitF (d0 : String) : Option Int :=
  let d := goTrimSpace d0
  if d = "no-store" then some 0
  else if d = "private" then some 0
  else if d = "no-cache" then some 0
  else if strStarts d "s-maxage=" then
    match goAtoi (strDropStart d "s-maxage=") with
    | some n => if 0 < n then some (durSeconds n) else none
    | none => none
  else if strStarts d "max-age=" then
    match goAtoi (strDropStart d "max-age=") with
    | some n => if 0 < n then some (durSeconds n) else none
    | none => none
  else none

/-- One iteration of the cache store's directive loop
(`cache.calculateTTL` / `lrucache.calculateTTL`): identical to
`directiveHitF` except that the "do not cache" directives return the
sentinel `-1`. -/
def directiveHitC (d0 : String) : Option Int :=
  let d := goTrimSpace d0
  if d = "no-store" then some (-1)
  else if d = "private" then some (-1)
  else if d = "no-cache" then some (-1)
  else if strStarts d "s-maxage=" then
    match goAtoi (strDropStart d "s-maxage=") with
    | some n => if 0 < n then some (durSeconds n) else none
    | none => none
  else if strStarts d "max-age=" then
    match goAtoi (strDropStart d "max-age=") with
    | some n => if 0 < n then some (durSeconds n) else none
    | none => none
  else none

/-- The frontend's directive loop: first directive that returns wins. -/
def scanDirectivesF : List String → Option Int
  | [] => none
  | d :: rest =>
    match directiveHitF d with
    | some t => some t
    | none => scanDirectivesF rest

/-- The cache store's directive loop: first directive that returns wins. -/
def scanDirectivesC : List String → Option Int
  | [] => none
  | d :: rest =>
    match directiveHitC d with
    | some t => some t
    | none => scanDirectivesC rest

/-! ## `Expires` date parsing

The source parses the `Expires` header by trying `time.Parse` with the
layouts `time.RFC1123`, `time.RFC1123Z`, `time.RFC850` and `time.ANSIC`
in that order, the first successful parse winning.  The parsers below
model those four fixed layouts including `time.Parse`'s parse-only
extras: an optional fractional second after the seconds field, the
full `parseTimeZone` grammar for the `MST` field (`UTC`, `ChST`/`MeST`,
`GMT` with an optional signed hour offset, signed-offset zone names,
and three- to five-letter uppercase abbreviations), and the signed
two-character year that `atoi` permits in the RFC850 layout.  As
`time.Parse` does when no matching location information is available,
a named zone other than `GMT±h` is recorded with offset 0.  A parsed
date is returned as the instant's Unix time in nanoseconds. -/

/-- Helper: split a character list at a separator character. -/
def splitChAux (sep : Char) : List Char → List Char → List String
  | [], acc => [⟨acc.reverse⟩]
  | c :: rest, acc =>
      if c = sep then ⟨acc.reverse⟩ :: splitChAux sep rest []
      else splitChAux sep rest (c :: acc)

/-- Split a string at every occurrence of a separator character. -/
def splitCh (sep : Char) (s : String) : List String :=
  splitChAux sep s.data []

/-- A fixed-width decimal number (Go's zero-padded layout fields such as
`02`, `04`, `05`, `2006` require exactly that many digits). -/
def fixedNum (w : Nat) (s : String) : Option Nat :=
  if s.data.length = w then digitsValAux s.data 0 else none

/-- A one- or two-digit decimal number (Go's non-padded numeric layout
fields such as `15` and `_2` accept one or two digits). -/
def num2or1 (s : String) : Option Nat :=
  if s.data.length = 1 ∨ s.data.length = 2 then digitsValAux s.data 0
  else none

/-- Lowercase a string's ASCII letters; Go matches month and day names
case-insensitively. -/
def strLower (s : String) : String :=
  ⟨s.data.map lowerChar⟩

/-- Short month names of the `Jan` layout field. -/
def monthNamesShort : List String :=
  ["jan", "feb", "mar", "apr", "may", "jun",
   "jul", "aug", "sep", "oct", "nov", "dec"]

/-- Month number (1-12) from a short month name, case-insensitive. -/
def monthNum (s : String) : Option Nat :=
  match monthNamesShort.findIdx? (fun m => m == strLower s) with
  | some i => some (i + 1)
  | none => none

/-- Short weekday names of the `Mon` layout field. -/
def shortDayNames : List String :=
  ["mon", "tue", "wed", "thu", "fri", "sat", "sun"]

/-- Long weekday names of the `Monday` layout field. -/
def longDayNames : List String :=
  ["monday", "tuesday", "wednesday", "thursday", "friday", "saturday",
   "sunday"]

/-- Is this a valid short weekday name (case-insensitive)?  The parsed
weekday is validated but otherwise discarded: `time.Parse` does not
check it against the date. -/
def isShortDay (s : String) : Bool :=
  shortDayNames.contains (strLower s)

/-- Is this a valid long weekday name (case-insensitive)? -/
def isLongDay (s : String) : Bool :=
  longDayNames.contains (strLower s)

/-- Value of a digit run (the caller has checked every character is a
decimal digit). -/
def digitsNatVal (ds : List Char) : Nat :=
  ds.foldl (fun a c => a * 10 + (c.toNat - 48)) 0

/-- Nanoseconds from a fractional-second digit run: the first nine
digits scaled to nine places, further digits consumed but ignored
(Go `parseNanoseconds` via its ten-byte truncation). -/
def fracNanos (ds : List Char) : Nat :=
  digitsNatVal (ds.take 9) * 10 ^ (9 - (ds.take 9).length)

/-- The zero-padded seconds field together with `time.Parse`'s
parse-only fractional second: exactly two digits, optionally followed
by a period or comma and a nonempty digit run — accepted even though
none of the four layouts has a fractional-second field. -/
def parseSecFrac (s : String) : Option (Nat × Nat) :=
  match s.data with
  | d1 :: d2 :: rest =>
    if d1.isDigit ∧ d2.isDigit then
      let sec := (d1.toNat - 48) * 10 + (d2.toNat - 48)
      match rest with
      | [] => some (sec, 0)
      | c :: ds =>
        if (c = '.' ∨ c = ',') ∧ ds ≠ [] ∧ ds.all Char.isDigit then
          some (sec, fracNanos ds)
        else none
    else none
  | _ => none

/-- A clock field `15:04:05`: hour of one or two digits, zero-padded
minute, seconds with the optional fractional part, with the range
checks `time.Parse` applies.  Result: (hour, minute, second,
nanosecond). -/
def parseClock (s : String) : Option (Nat × Nat × Nat × Nat) :=
  match splitCh ':' s with
  | [hh, mm, ss] =>
    match num2or1 hh, fixedNum 2 mm, parseSecFrac ss with
    | some h, some mi, some (sec, ns) =>
        if h ≤ 23 ∧ mi ≤ 59 ∧ sec ≤ 59 then some (h, mi, sec, ns)
        else none
    | _, _, _ => none
  | _ => none

/-- Uppercase ASCII letter test, for zone abbreviations. -/
def isUpperAlpha (c : Char) : Bool :=
  'A' ≤ c && c ≤ 'Z'

/-- Go's `parseSignedOffset`, applied to the whole remainder of a zone
token (the zone ends the input in these layouts, so nothing may be left
over): a sign, then a nonempty digit run whose value is at most 23. -/
def signedOffsetAll (l : List Char) : Option Int :=
  match l with
  | '+' :: ds =>
      if ds ≠ [] ∧ ds.all Char.isDigit ∧ digitsNatVal ds ≤ 23 then
        some ((digitsNatVal ds : Nat) : Int)
      else none
  | '-' :: ds =>
      if ds ≠ [] ∧ ds.all Char.isDigit ∧ digitsNatVal ds ≤ 23 then
        some (-((digitsNatVal ds : Nat) : Int))
      else none
  | _ => none

/-- The `MST` layout field: `time.Parse`'s `UTC` special case followed
by the `parseTimeZone` grammar, with the whole token consumed.  `UTC`
and the `ChST`/`MeST` special cases give offset 0; `GMT` optionally
carries a signed hour offset (applied in seconds); a signed-offset
name such as `+05` is accepted as a zone *name* with offset 0 (only
`GMT`-prefixed names get an offset); otherwise three uppercase
letters, four ending in `T` (or `WITA`), or five ending in `T` are
accepted as named zones with offset 0, as `time.Parse` records for an
abbreviation with no known location. -/
def zoneAbbrevOffset (s : String) : Option Int :=
  if s = "UTC" then some 0
  else if strStarts s "UTC" then none
  else if s = "ChST" ∨ s = "MeST" then some 0
  else if strStarts s "GMT" then
    match s.data.drop 3 with
    | [] => some 0
    | rest => (signedOffsetAll rest).map (fun h => h * 3600)
  else if s.data.length < 3 then none
  else
    match s.data with
    | '+' :: _ => if (signedOffsetAll s.data).isSome then some 0 else none
    | '-' :: _ => if (signedOffsetAll s.data).isSome then some 0 else none
    | _ =>
      if s.data.length = 3 ∧ s.data.all isUpperAlpha then some 0
      else if s.data.length = 4 ∧ s.data.all isUpperAlpha ∧
          (s.data.getD 3 ' ' = 'T' ∨ s = "WITA") then some 0
      else if s.data.length = 5 ∧ s.data.all isUpperAlpha ∧
          s.data.getD 4 ' ' = 'T' then some 0
      else none

/-- The `-0700` layout field: sign then exactly four digits, hour at
most 24 and minute at most 60 (`time.Parse` rejects only values
strictly above those), giving the offset east of UTC in seconds. -/
def zoneNumOffset (s : String) : Option Int :=
  match s.data with
  | [sign, d1, d2, d3, d4] =>
    if (sign = '+' ∨ sign = '-') ∧ d1.isDigit ∧ d2.isDigit ∧
        d3.isDigit ∧ d4.isDigit then
      let hr := (d1.toNat - 48) * 10 + (d2.toNat - 48)
      let mm := (d3.toNat - 48) * 10 + (d4.toNat - 48)
      if hr ≤ 24 ∧ mm ≤ 60 then
        some (if sign = '-' then -((hr * 3600 + mm * 60 : Nat) : Int)
              else ((hr * 3600 + mm * 60 : Nat) : Int))
      else none
    else none
  | _ => none

/-- Is this year a leap year (proleptic Gregorian, as `time` uses)? -/
def isLeapYear (y : Int) : Bool :=
  y % 4 = 0 && (y % 100 ≠ 0 || y % 400 = 0)

/-- Number of days in a month, for the day-of-month range check that
`time.Parse` performs. -/
def daysInMonth (mo : Nat) (y : Int) : Nat :=
  match mo with
  | 1 => 31 | 3 => 31 | 5 => 31 | 7 => 31 | 8 => 31 | 10 => 31 | 12 => 31
  | 4 => 30 | 6 => 30 | 9 => 30 | 11 => 30
  | 2 => if isLeapYear y then 29 else 28
  | _ => 0

/-- Days since the Unix epoch of a civil date (standard days-from-civil
computation; the year-minus-399 adjustment makes truncating division
act as floor division for the negative year that January/February of
year 0 produce). -/
def daysFromCivil (y0 : Int) (mo d : Nat) : Int :=
  let y : Int := if mo ≤ 2 then y0 - 1 else y0
  let era : Int := (if 0 ≤ y then y else y - 399) / 400
  let yoe : Int := y - era * 400
  let mp : Int := if 2 < mo then (mo : Int) - 3 else (mo : Int) + 9
  let doy : Int := (153 * mp + 2) / 5 + (d : Int) - 1
  let doe : Int := yoe * 365 + yoe / 4 - yoe / 100 + doy
  era * 146097 + doe - 719468

/-- Unix nanoseconds of a parsed date/time at a given zone offset. -/
def civilToUnixNano (y : Int) (mo d h mi s ns : Nat) (offset : Int) :
    Int :=
  (daysFromCivil y mo d * 86400 + ((h * 3600 + mi * 60 + s : Nat) : Int)
    - offset) * 1000000000 + ns

/-- `time.Parse` with the RFC1123 family of layouts
(`Mon, 02 Jan 2006 15:04:05 MST`), the zone field parser supplied by
the caller so that `RFC1123` and `RFC1123Z` share the body. -/
def parseRFC1123With (zone : String → Option Int) (s : String) :
    Option Int :=
  match splitCh ' ' s with
  | [p0, p1, p2, p3, p4, p5] =>
    if p0.data.getLast? = some ',' ∧ isShortDay ⟨p0.data.dropLast⟩ then
      match fixedNum 2 p1, monthNum p2, fixedNum 4 p3, parseClock p4,
          zone p5 with
      | some d, some mo, some y, some (h, mi, sec, ns), some off =>
          if 1 ≤ d ∧ d ≤ daysInMonth mo (y : Int) then
            some (civilToUnixNano (y : Int) mo d h mi sec ns off)
          else none
      | _, _, _, _, _ => none
    else none
  | _ => none

/-- `time.Parse(time.RFC1123, s)` as Unix nanoseconds. -/
def parseRFC1123 (s : String) : Option Int :=
  parseRFC1123With zoneAbbrevOffset s

/-- `time.Parse(time.RFC1123Z, s)` as Unix nanoseconds. -/
def parseRFC1123Z (s : String) : Option Int :=
  parseRFC1123With zoneNumOffset s

/-- The two-character year field of the RFC850 layout: `time.Parse`
slices exactly two characters and hands them to `atoi`, which also
accepts a sign, so `+6` is year value 6. -/
def year2Field (s : String) : Option Int :=
  if s.data.length = 2 then goAtoi s else none

/-- The `02-Jan-06` date field of the RFC850 layout: zero-padded day,
month name, and the two-character year.  A year of the form `-6`
splits at the hyphens into an empty piece and one digit and denotes
the negative year value `-6` (which the 69-cutoff maps to 1994), as
`atoi`'s sign acceptance makes `time.Parse` do. -/
def parseRFC850Date (p : String) : Option (Nat × Nat × Int) :=
  match splitCh '-' p with
  | [dd, mon, yy] =>
    match fixedNum 2 dd, monthNum mon, year2Field yy with
    | some d, some mo, some y2 =>
        some (d, mo, if 69 ≤ y2 then 1900 + y2 else 2000 + y2)
    | _, _, _ => none
  | [dd, mon, "", d1] =>
    match fixedNum 2 dd, monthNum mon, fixedNum 1 d1 with
    | some d, some mo, some n =>
        let y2 : Int := -(n : Int)
        some (d, mo, if 69 ≤ y2 then 1900 + y2 else 2000 + y2)
    | _, _, _ => none
  | _ => none

/-- `time.Parse(time.RFC850, s)` (`Monday, 02-Jan-06 15:04:05 MST`) as
Unix nanoseconds.  The two-digit year maps 69-99 to 19xx and the rest
to 20xx as Go does. -/
def parseRFC850 (s : String) : Option Int :=
  match splitCh ' ' s with
  | [p0, p1, p2, p3] =>
    if p0.data.getLast? = some ',' ∧ isLongDay ⟨p0.data.dropLast⟩ then
      match parseRFC850Date p1, parseClock p2, zoneAbbrevOffset p3 with
      | some (d, mo, y), some (h, mi, sec, ns), some off =>
          if 1 ≤ d ∧ d ≤ daysInMonth mo y then
            some (civilToUnixNano y mo d h mi sec ns off)
          else none
      | _, _, _ => none
    else none
  | _ => none

/-- `time.Parse(time.ANSIC, s)` (`Mon Jan _2 15:04:05 2006`) as Unix
nanoseconds; no zone field, so offset 0.  The `_2` day field accepts
either a space-padded single digit (producing an empty piece when
split at spaces) or one to two digits. -/
def parseANSIC (s : String) : Option Int :=
  let finish : String → String → String → String → String → Option Int :=
    fun day mon dd clock year =>
      if isShortDay day then
        match monthNum mon, num2or1 dd, parseClock clock,
            fixedNum 4 year with
        | some mo, some d, some (h, mi, sec, ns), some y =>
            if 1 ≤ d ∧ d ≤ daysInMonth mo (y : Int) then
              some (civilToUnixNano (y : Int) mo d h mi sec ns 0)
            else none
        | _, _, _, _ => none
      else none
  match splitCh ' ' s with
  | [p0, p1, p2, p3, p4] => finish p0 p1 p2 p3 p4
  | [p0, p1, "", p2, p3, p4] => finish p0 p1 p2 p3 p4
  | _ => none

/-- The source's format loop: try RFC1123, RFC1123Z, RFC850 and ANSIC
in order; the first successful parse wins.  Result in Unix
nanoseconds. -/
def parseExpires (s : String) : Option Int :=
  match parseRFC1123 s with
  | some t => some t
  | none =>
    match parseRFC1123Z s with
    | some t => some t
    | none =>
      match parseRFC850 s with
      | some t => some t
      | none => parseANSIC s

/-! ## The TTL calculators

`calculateTTL` exists in two layers.  The frontend copy
(`frontend/calculateTTL`) returns `0` for "do not cache", the 5-minute
`defaultTTL` when no header decides, and a positive duration otherwise.
The cache-store copy (`cache.calculateTTL` and its `lrucache` twin)
returns `-1` for "do not cache", `0` ("default cache behaviour, no
expiration") when no header decides, and a positive duration otherwise.
Both consult the wall clock (`time.Until`) in the `Expires` branch, so
they are modelled with the current time as an explicit parameter, in
Unix nanoseconds. -/

/-- The frontend's `defaultTTL` constant: `5 * time.Minute` in
nanoseconds. -/
def frontendDefaultTTL : Int := 300000000000

/-- Upper bound of Go's `time.Duration` (an `int64` of nanoseconds). -/
def maxDuration : Int := 2 ^ 63 - 1

/-- Lower bound of Go's `time.Duration`. -/
def minDuration : Int := -(2 ^ 63)

/-- Go `Time.Sub` — and hence `time.Until` — on two instants in Unix
nanoseconds: the exact difference when it fits a `Duration`, saturated
at the `Duration` bounds otherwise. -/
def goSub (x y : Int) : Int :=
  let d := x - y
  if d < minDuration then minDuration
  else if maxDuration < d then maxDuration
  else d

/-- Shared `Expires`/`Age` phase of both calculators, reached when the
`Cache-Control` loop falls through: parse the `Expires` header with the
four formats, compute the remaining lifetime relative to `now` with
`time.Until`'s saturating subtraction, subtract a positive `Age` with
`int64` wraparound, and return the `expired` sentinel when the
lifetime is not positive and `deflt` when nothing decides.  (`expired`
is `0` in the frontend copy and `-1` in the cache copy; `deflt` is
`defaultTTL` and `0` respectively.) -/
def expiresPhase (headers : Header) (now : Int) (expired deflt : Int) :
    Int :=
  let expires := hGet headers "Expires"
  if expires ≠ "" then
    match parseExpires expires with
    | some expNano =>
      let ttl := goSub expNano now
      if 0 < ttl then
        let age := hGet headers "Age"
        if age ≠ "" then
          match goAtoi age with
          | some ageSec =>
            if 0 < ageSec then
              let ttl2 := wrap64 (ttl - durSeconds ageSec)
              if ttl2 ≤ 0 then expired else ttl2
            else ttl
          | none => ttl
        else ttl
      else expired
    | none => deflt
  else deflt

/-- The frontend's `calculateTTL` (package `frontend`): `Cache-Control`
directive loop first, then the `Expires`/`Age` phase, with sentinels
`0` = do not cache and `defaultTTL` = nothing decided. -/
def frontendCalculateTTL (headers : Header) (now : Int) : Int :=
  let cc := hGet headers "Cache-Control"
  let loop : Option Int :=
    if cc ≠ "" then scanDirectivesF (goSplitComma cc) else none
  match loop with
  | some t => t
  | none => expiresPhase headers now 0 frontendDefaultTTL

/-- The cache store's `calculateTTL` (package `cache`, duplicated in
`lrucache`): sentinels `-1` = do not cache and `0` = default cache
behaviour (no expiration). -/
def cacheCalculateTTL (headers : Header) (now : Int) : Int :=
  let cc := hGet headers "Cache-Control"
  let loop : Option Int :=
    if cc ≠ "" then scanDirectivesC (goSplitComma cc) else none
  match loop with
  | some t => t
  | none => expiresPhase headers now (-1) 0

/-! ## The cache store's `Set` -/

/-- Which ristretto call `cache.Store.Set` makes: `noTTL` is
`cache.Set` (no expiration), `withTTL t` is `cache.SetWithTTL` with
lifetime `t`. -/
inductive SetAction where
  | noTTL : SetAction
  | withTTL (ttl : Int) : SetAction
deriving DecidableEq

/-- `cache.Store.Set` (and `lrucache.LRUCache.Set`): recompute the TTL
from the stored object's headers; `0` means store without expiration,
anything else is passed to `SetWithTTL`. -/
def storeSetAction (headers : Header) (now : Int) : SetAction :=
  let ttl := cacheCalculateTTL headers now
  if ttl = 0 then SetAction.noTTL else SetAction.withTTL ttl

/-! ## Backend client -/

/-- UTF-8 encoding of one character, as natural numbers below 256. -/
def utf8Bytes (c : Char) : List Nat :=
  let v := c.toNat
  if v < 0x80 then [v]
  else if v < 0x800 then [0xC0 + v / 64, 0x80 + v % 64]
  else if v < 0x10000 then
    [0xE0 + v / 4096, 0x80 + v / 64 % 64, 0x80 + v % 64]
  else
    [0xF0 + v / 262144, 0x80 + v / 4096 % 64, 0x80 + v / 64 % 64,
     0x80 + v % 64]

/-- UTF-8 bytes of a string (Go strings are UTF-8 byte sequences). -/
def strBytes (s : String) : List Nat :=
  s.data.flatMap utf8Bytes

/-- An HTTP response as the dispatcher sees it: status code, header map
and (fully read) body bytes. -/
structure Response where
  statusCode : Nat
  headers : Header
  body : List Nat
deriving DecidableEq

/-- The backend's synthetic fallback response `nuts()`: HTTP 500, the
fixed diagnostic body, `Content-Type: text/plain` and
`X-Backend-Name: nuts`. -/
def nuts : Response where
  statusCode := 500
  headers := hAdd (hAdd [] "Content-Type" "text/plain") "X-Backend-Name" "nuts"
  body := strBytes "<html><body><h1>I have a confuse</h1></body></html>"

/-- `backend.Client.Fetch`: the outcome of `httpClient.Do` is the
embedding's input (`none` models any connection-level failure — DNS,
connect, timeout, TLS).  On failure the client returns `(nuts(), false)`
instead of propagating an error; on success it returns the backend's
response with `true`. -/
def Fetch (doResult : Option Response) : Response × Bool :=
  match doResult with
  | none => (nuts, false)
  | some r => (r, true)

/-! ## Request dispatcher (frontend) -/

/-- A cache entry (`cache.ObjCore`): response headers and body bytes
only — the origin's status code is not recorded. -/
structure ObjCore where
  Headers : Header
  Body : List Nat
deriving DecidableEq

/-- The `go:embed`ed version string.  Modelled from the spec: the
`.version` file is not part of the sources; its contents only influence
the text of the `Via` header. -/
def embeddedVersion : String := "dev"

/-- `frontend.versionString`. -/
def versionString : String := "hazelnut " ++ embeddedVersion

/-- `frontend.headerDenyList`: the hop-by-hop headers stripped before
storing or forwarding. -/
def headerDenyList : List String :=
  ["connection", "keep-alive", "proxy-authenticate", "proxy-authorization",
   "te", "trailers", "transfer-encoding", "upgrade"]

/-- The dispatcher's header cleanup on the miss path: delete every
deny-listed header, then add the `Via` header. -/
def cleanHeaders (h : Header) : Header :=
  hAdd (headerDenyList.foldl hDel h) "Via" versionString

/-- Observable outcome of handling one request: the status written to
the client, how many cache lookups were performed, what (if anything)
was inserted into the cache, whether a TTL was computed, and the
`X-Cache` / `X-Cache-TTL` diagnostic headers added. -/
structure DispatchResult where
  status : Nat
  cacheGets : Nat
  cacheInsert : Option ObjCore
  ttlComputed : Bool
  xCache : Option String
  xCacheTTL : Option Int
deriving DecidableEq

/-- `frontend.Server.cacheable`, the GET/HEAD path, as a function of
the cache-lookup result, the backend fetch outcome `(beResp, fetchOk)`,
whether the body read succeeded, and the current time.  On a hit the
cached object is written with status 200; on a miss the backend
response is cleaned, cached when `fetchOk` holds and the computed TTL is
positive, and written back with the backend's status code. -/
def cacheableHandler (lookup : Option ObjCore) (beResp : Response)
    (fetchOk : Bool) (bodyReadOk : Bool) (now : Int) : DispatchResult :=
  match lookup with
  | some _ =>
      { status := 200, cacheGets := 1, cacheInsert := none,
        ttlComputed := false, xCache := some "hit", xCacheTTL := none }
  | none =>
    if !bodyReadOk then
      { status := 500, cacheGets := 1, cacheInsert := none,
        ttlComputed := false, xCache := none, xCacheTTL := none }
    else
      let cleaned := cleanHeaders beResp.headers
      if fetchOk then
        let ttl := frontendCalculateTTL cleaned now
        if 0 < ttl then
          { status := beResp.statusCode, cacheGets := 1,
            cacheInsert := some ⟨cleaned, beResp.body⟩,
            ttlComputed := true, xCache := some "miss",
            xCacheTTL := some ttl }
        else
          { status := beResp.statusCode, cacheGets := 1,
            cacheInsert := none, ttlComputed := true,
            xCache := some "miss", xCacheTTL := none }
      else
        { status := beResp.statusCode, cacheGets := 1,
          cacheInsert := none, ttlComputed := false,
          xCache := some "miss", xCacheTTL := none }

/-- `frontend.Server.defaultMethod`, the pass-through path for any
method other than GET/HEAD: fetch and forward verbatim — no cache
lookup, no cache insertion, no TTL computation. -/
def defaultMethodHandler (beResp : Response) : DispatchResult :=
  { status := beResp.statusCode, cacheGets := 0, cacheInsert := none,
    ttlComputed := false, xCache := none, xCacheTTL := none }

/-- `frontend.Server.ServeHTTP`: the method switch — GET and HEAD take
the cacheable path, every other method the pass-through path. -/
def ServeHTTP (method : String) (lookup : Option ObjCore)
    (beResp : Response) (fetchOk : Bool) (bodyReadOk : Bool)
    (now : Int) : DispatchResult :=
  if method = "GET" then cacheableHandler lookup beResp fetchOk bodyReadOk now
  else if method = "HEAD" then
    cacheableHandler lookup beResp fetchOk bodyReadOk now
  else defaultMethodHandler beResp

/-! ## SHA-256 and the cache key

`cache.MakeKey` feeds the request host (unless `ignoreHost`) and the
request path into a `crypto/sha256` hash and returns the 32-byte sum.
Feeding two writes into a streaming hash equals hashing the
concatenation, so `MakeKey` is `sha256` of the concatenated bytes.
The hash itself (FIPS 180-4) is embedded below over byte lists, all
word arithmetic taken modulo `2 ^ 32`. -/

/-- Right rotation of a 32-bit word. -/
def rotr32 (n w : Nat) : Nat :=
  (w / 2 ^ n + w * 2 ^ (32 - n)) % 2 ^ 32

/-- The SHA-256 round constants (decimal). -/
def shaK : List Nat :=
  [1116352408, 1899447441, 3049323471, 3921009573,
   961987163, 1508970993, 2453635748, 2870763221,
   3624381080, 310598401, 607225278, 1426881987,
   1925078388, 2162078206, 2614888103, 3248222580,
   3835390401, 4022224774, 264347078, 604807628,
   770255983, 1249150122, 1555081692, 1996064986,
   2554220882, 2821834349, 2952996808, 3210313671,
   3336571891, 3584528711, 113926993, 338241895,
   666307205, 773529912, 1294757372, 1396182291,
   1695183700, 1986661051, 2177026350, 2456956037,
   2730485921, 2820302411, 3259730800, 3345764771,
   3516065817, 3600352804, 4094571909, 275423344,
   430227734, 506948616, 659060556, 883997877,
   958139571, 1322822218, 1537002063, 1747873779,
   1955562222, 2024104815, 2227730452, 2361852424,
   2428436474, 2756734187, 3204031479, 3329325298]

/-- The eight 32-bit words of a SHA-256 chaining state. -/
structure Hash8 where
  a : Nat
  b : Nat
  c : Nat
  d : Nat
  e : Nat
  f : Nat
  g : Nat
  h : Nat
deriving DecidableEq

/-- The SHA-256 initial hash value (decimal). -/
def shaH0 : Hash8 :=
  ⟨1779033703, 3144134277, 1013904242, 2773480762,
   1359893119, 2600822924, 528734635, 1541459225⟩

/-- Big-endian bytes of a 64-bit length field. -/
def be64 (n : Nat) : List Nat :=
  [n / 2 ^ 56 % 256, n / 2 ^ 48 % 256, n / 2 ^ 40 % 256,
   n / 2 ^ 32 % 256, n / 2 ^ 24 % 256, n / 2 ^ 16 % 256,
   n / 2 ^ 8 % 256, n % 256]

/-- SHA-256 padding: append `0x80`, zeros to 56 mod 64, then the
bit length as a big-endian 64-bit integer. -/
def padMsg (msg : List Nat) : List Nat :=
  let len := msg.length
  msg ++ [0x80] ++ List.replicate ((64 - (len + 9) % 64) % 64) 0 ++
    be64 (8 * len % 2 ^ 64)

/-- The `i`-th big-endian 32-bit word of a 64-byte block. -/
def word32At (block : List Nat) (i : Nat) : Nat :=
  block.getD (4 * i) 0 * 2 ^ 24 + block.getD (4 * i + 1) 0 * 2 ^ 16 +
    block.getD (4 * i + 2) 0 * 2 ^ 8 + block.getD (4 * i + 3) 0

/-- Message-schedule sigma functions. -/
def sigma0 (x : Nat) : Nat :=
  Nat.xor (Nat.xor (rotr32 7 x) (rotr32 18 x)) (x / 2 ^ 3)

/-- Second message-schedule sigma function. -/
def sigma1 (x : Nat) : Nat :=
  Nat.xor (Nat.xor (rotr32 17 x) (rotr32 19 x)) (x / 2 ^ 10)

/-- Extend the 16 block words to the 64-entry message schedule. -/
def extendW : Nat → List Nat → List Nat
  | 0, w => w
  | n + 1, w =>
    let l := w.length
    extendW n (w ++ [(sigma1 (w.getD (l - 2) 0) + w.getD (l - 7) 0 +
      sigma0 (w.getD (l - 15) 0) + w.getD (l - 16) 0) % 2 ^ 32])

/-- The message schedule of one 64-byte block. -/
def schedule (block : List Nat) : List Nat :=
  extendW 48 ((List.range 16).map (word32At block))

/-- One SHA-256 compression round. -/
def shaRound (k w : Nat) (s : Hash8) : Hash8 :=
  let bigS1 := Nat.xor (Nat.xor (rotr32 6 s.e) (rotr32 11 s.e)) (rotr32 25 s.e)
  let ch := Nat.xor (s.e &&& s.f) (Nat.xor s.e 0xffffffff &&& s.g)
  let temp1 := (s.h + bigS1 + ch + k + w) % 2 ^ 32
  let bigS0 := Nat.xor (Nat.xor (rotr32 2 s.a) (rotr32 13 s.a)) (rotr32 22 s.a)
  let maj := Nat.xor (Nat.xor (s.a &&& s.b) (s.a &&& s.c)) (s.b &&& s.c)
  let temp2 := (bigS0 + maj) % 2 ^ 32
  ⟨(temp1 + temp2) % 2 ^ 32, s.a, s.b, s.c,
   (s.d + temp1) % 2 ^ 32, s.e, s.f, s.g⟩

/-- Run the 64 rounds over the round constants and schedule words. -/
def shaRounds : List Nat → List Nat → Hash8 → Hash8
  | k :: ks, w :: ws, s => shaRounds ks ws (shaRound k w s)
  | _, _, s => s

/-- Word-wise modular addition of two chaining states. -/
def addHash (x y : Hash8) : Hash8 :=
  ⟨(x.a + y.a) % 2 ^ 32, (x.b + y.b) % 2 ^ 32, (x.c + y.c) % 2 ^ 32,
   (x.d + y.d) % 2 ^ 32, (x.e + y.e) % 2 ^ 32, (x.f + y.f) % 2 ^ 32,
   (x.g + y.g) % 2 ^ 32, (x.h + y.h) % 2 ^ 32⟩

/-- Compress one 64-byte block into the chaining state. -/
def compress (s : Hash8) (block : List Nat) : Hash8 :=
  addHash s (shaRounds shaK (schedule block) s)

/-- Process `n` 64-byte blocks of the padded message. -/
def processBlocks : Nat → Hash8 → List Nat → Hash8
  | 0, s, _ => s
  | n + 1, s, msg => processBlocks n (compress s (msg.take 64)) (msg.drop 64)

/-- Big-endian bytes of one 32-bit word. -/
def wordBE (w : Nat) : List Nat :=
  [w / 2 ^ 24 % 256, w / 2 ^ 16 % 256, w / 2 ^ 8 % 256, w % 256]

/-- SHA-256 of a byte list: pad, compress each block, serialize. -/
def sha256 (msg : List Nat) : List Nat :=
  let p := padMsg msg
  let s := processBlocks (p.length / 64) shaH0 p
  wordBE s.a ++ wordBE s.b ++ wordBE s.c ++ wordBE s.d ++
    wordBE s.e ++ wordBE s.f ++ wordBE s.g ++ wordBE s.h

/-- `cache.MakeKey`: SHA-256 over the request path alone when
`ignoreHost`, else over host followed by path (the two `sh.Write` calls
of a streaming hash equal hashing the concatenation). -/
def MakeKey (host path : String) (ignoreHost : Bool) : List Nat :=
  sha256 ((if ignoreHost then [] else strBytes host) ++ strBytes path)

/-! ## Bounded cache store model

`cache.New` configures the third-party ristretto engine with
`MaxCost := maxSize`, `NumCounters := maxObj * 10` and a cost function
returning the body's byte length; `Store.Set`/`Store.SetWithTTL` pass
`int64(len(value.Body))` as the cost of every insertion.  The engine
itself is not part of this repository, so its admission/eviction
behaviour is modelled from the spec below. -/

/-- A stored entry: its key and its cost (body byte length). -/
structure ModelEntry where
  key : Nat
  cost : Nat
deriving DecidableEq

/-- Modelled from the spec: the state of the bounded cache engine
(ristretto, not part of the sources) — the configured maximum object
count and maximum aggregate cost, and the stored entries. -/
structure ModelStore where
  maxObj : Nat
  maxSize : Nat
  entries : List ModelEntry

/-- Aggregate cost of the stored entries. -/
def totalCost (l : List ModelEntry) : Nat :=
  (l.map ModelEntry.cost).sum

/-- Modelled from the spec: evict stored entries until the new item of
the given cost fits within both budgets.  Which entry is evicted is not
a correctness requirement (§4.3); this model evicts oldest-first. -/
def evictFor (maxObj maxSize cost : Nat) :
    List ModelEntry → List ModelEntry
  | [] => []
  | e :: rest =>
      if totalCost (e :: rest) + cost ≤ maxSize ∧
          (e :: rest).length + 1 ≤ maxObj then e :: rest
      else evictFor maxObj maxSize cost rest

/-- Modelled from the spec: one `Set`/`SetWithTTL` call with the cost
the repository code supplies (`int64(len(value.Body))`).  An item whose
cost exceeds the entire budget, or any item when no object slot is
configured, is never admitted; otherwise the existing entry for the key
is replaced and older entries are evicted until both budgets hold. -/
def modelSet (s : ModelStore) (key : Nat) (body : List Nat) : ModelStore :=
  if body.length ≤ s.maxSize ∧ 1 ≤ s.maxObj then
    let kept := evictFor s.maxObj s.maxSize body.length
      (s.entries.filter (fun e => e.key ≠ key))
    { s with entries := ⟨key, body.length⟩ :: kept }
  else s

/-- One call of the store interface: `Set` (recomputed TTL) or
`SetWithTTL` (explicit TTL).  The TTL choice does not affect the
capacity accounting; both insert with cost `len(Body)`. -/
structure SetOp where
  key : Nat
  body : List Nat
  explicitTTL : Option Int

/-- `cache.New maxObj maxSize`: an empty store with the configured
budgets. -/
def modelNew (maxObj maxSize : Nat) : ModelStore :=
  ⟨maxObj, maxSize, []⟩

/-- Run a sequence of `Set`/`SetWithTTL` calls against a store. -/
def runOps : List SetOp → ModelStore → ModelStore
  | [], s => s
  | op :: rest, s => runOps rest (modelSet s op.key op.body)

/-- The capacity invariant: aggregate cost within `maxSize`, object
count within `maxObj`. -/
def storeInv (s : ModelStore) : Prop :=
  totalCost s.entries ≤ s.maxSize ∧ s.entries.length ≤ s.maxObj

end Hazelnut

section SanityChecks
open Hazelnut

example : goSplitComma "a,b" = ["a", "b"] := by decide
example : goTrimSpace "  x " = "x" := by decide
example : goAtoi "3600" = some 3600 := by decide
example : goAtoi "-7" = some (-7) := by decide
example : goAtoi "" = none := by decide
example : goAtoi "+" = none := by decide
example : goAtoi "12a" = none := by decide
example : strStarts "max-age=60" "max-age=" = true := by decide
example : strDropStart "max-age=60" "max-age=" = "60" := by decide
example : durSeconds 3600 = 3600000000000 := by decide
example : hGet [("Cache-Control", ["no-store"])] "Cache-Control" = "no-store" := by decide
example : canonicalKey "connection" = "Connection" := by decide
example : directiveHitF "no-store" = some 0 := by decide
example : directiveHitF " s-maxage=60" = some 60000000000 := by decide
example : directiveHitF "max-age=0" = none := by decide
example : scanDirectivesF ["max-age=3600", " no-store"] = some 3600000000000 := by decide
example : parseRFC1123 "Thu, 01 Jan 2026 00:00:00 GMT" = some 1767225600000000000 := by decide
example : parseExpires "Thu, 01 Jan 2026 00:00:00 GMT" = some 1767225600000000000 := by decide
example : parseExpires "Thu, 01 Jan 1970 00:00:02 GMT" = some 2000000000 := by decide
example : parseExpires "Thu, 01 Jan 2026 00:00:00 +0100" = some 1767222000000000000 := by decide
example : parseExpires "Thursday, 01-Jan-26 00:00:00 GMT" = some 1767225600000000000 := by decide
example : parseExpires "Thu Jan  1 00:00:00 2026" = some 1767225600000000000 := by decide
example : parseExpires "not a date" = none := by decide
example : parseExpires "Thu, 01 Jan 2026 00:00:00.5 GMT" = some 1767225600500000000 := by decide
example : parseExpires "Thu, 01 Jan 2026 00:00:00,25 GMT" = some 1767225600250000000 := by decide
example : parseExpires "Thu, 01 Jan 2026 00:00:00.5 +0000" = some 1767225600500000000 := by decide
example : parseExpires "Thu, 01 Jan 2026 00:00:00 ChST" = some 1767225600000000000 := by decide
example : parseExpires "Thu, 01 Jan 2026 00:00:00 GMT-5" = some 1767243600000000000 := by decide
example : parseExpires "Thu, 01 Jan 2026 00:00:00 +05" = some 1767225600000000000 := by decide
example : parseExpires "Thu, 01 Jan 2026 00:00:00 AZOST" = some 1767225600000000000 := by decide
example : parseExpires "Thu, 01 Jan 2026 00:00:00 WITA" = some 1767225600000000000 := by decide
example : parseExpires "Monday, 02-Jan--6 15:04:05 GMT" = some 757523045000000000 := by decide
example : parseExpires "Thu, 01 Jan 2026 00:00:00 UT" = none := by decide
example : parseExpires "Thu, 01 Jan 2026 00:00:00 ABCDE" = none := by decide
example : parseExpires "Thu, 01 Jan 2026 00:00:00 GMT+24" = none := by decide
example : parseExpires "Thu, 01 Jan 2026 00:00:00. GMT" = none := by decide
example : zoneAbbrevOffset "ABCD" = none := by decide
example : zoneAbbrevOffset "CEST" = some 0 := by decide
example : zoneNumOffset "+2460" = some 90000 := by decide
example : frontendCalculateTTL [("Cache-Control", ["no-store"])] 0 = 0 := by decide
example : cacheCalculateTTL [("Cache-Control", ["no-store"])] 0 = -1 := by decide
example : frontendCalculateTTL [("Cache-Control", ["max-age=3600"])] 0 = 3600000000000 := by decide
example : frontendCalculateTTL [("Cache-Control", ["s-maxage=60, max-age=3600"])] 0 = 60000000000 := by decide
example : frontendCalculateTTL [("Cache-Control", ["max-age=3600, s-maxage=60"])] 0 = 3600000000000 := by decide
example : frontendCalculateTTL [("Cache-Control", ["max-age=3600, no-store"])] 0 = 3600000000000 := by decide
example : frontendCalculateTTL [] 0 = 300000000000 := by decide
example : cacheCalculateTTL [] 0 = 0 := by decide
example : frontendCalculateTTL [("Expires", ["Thu, 01 Jan 2026 00:00:00 GMT"])] 0 = 1767225600000000000 := by decide
example : frontendCalculateTTL [("Expires", ["Thu, 01 Jan 2026 00:00:00 GMT"])] 1767225600000000000 = 0 := by decide
example : frontendCalculateTTL [("Expires", ["Thu, 01 Jan 2026 00:00:00 GMT"]), ("Age", ["600"])] 0 = 1767225000000000000 := by decide
example : storeSetAction [] 0 = Hazelnut.SetAction.noTTL := by decide
example : nuts.statusCode = 500 := by decide
example : hGet nuts.headers "X-Backend-Name" = "nuts" := by decide
example : (cacheableHandler none nuts false true 0).cacheInsert = none := by decide
example : (cacheableHandler none nuts false true 0).status = 500 := by decide
example :
    (ServeHTTP "POST" none nuts true true 0).cacheGets = 0 := by decide

example : sha256 [] =
    [227, 176, 196, 66, 152, 252, 28, 20,
     154, 251, 244, 200, 153, 111, 185, 36,
     39, 174, 65, 228, 100, 155, 147, 76,
     164, 149, 153, 27, 120, 82, 184, 85] := by decide

example : sha256 (strBytes "abc") =
    [186, 120, 22, 191, 143, 1, 207, 234,
     65, 65, 64, 222, 93, 174, 34, 35,
     176, 3, 97, 163, 150, 23, 122, 156,
     180, 16, 255, 97, 242, 0, 21, 173] := by decide

end SanityChecks

namespace Hazelnut

/-! ## Helper lemmas about the directive scan -/

/-- A directive that trims to one of the blocking words makes the
frontend loop return its "do not cache" sentinel `0`. -/
lemma directiveHitF_blocking {d : String}
    (h : goTrimSpace d = "no-store" ∨ goTrimSpace d = "private" ∨
      goTrimSpace d = "no-cache") :
    directiveHitF d = some 0 := by
  rcases h with h | h | h <;> simp [directiveHitF, h]

/-- A directive that trims to one of the blocking words makes the cache
store's loop return its "do not cache" sentinel `-1`. -/
lemma directiveHitC_blocking {d : String}
    (h : goTrimSpace d = "no-store" ∨ goTrimSpace d = "private" ∨
      goTrimSpace d = "no-cache") :
    directiveHitC d = some (-1) := by
  rcases h with h | h | h <;> simp [directiveHitC, h]

/-- A `s-maxage=` directive with a parseable positive count makes the
frontend loop return that many seconds. -/
lemma directiveHitF_smaxage {d : String} {n : Int}
    (hs : strStarts (goTrimSpace d) "s-maxage=" = true)
    (hn : goAtoi (strDropStart (goTrimSpace d) "s-maxage=") = some n)
    (hpos : 0 < n) :
    directiveHitF d = some (durSeconds n) := by
  have h1 : goTrimSpace d ≠ "no-store" := by
    intro he; rw [he] at hs; exact absurd hs (by decide)
  have h2 : goTrimSpace d ≠ "private" := by
    intro he; rw [he] at hs; exact absurd hs (by decide)
  have h3 : goTrimSpace d ≠ "no-cache" := by
    intro he; rw [he] at hs; exact absurd hs (by decide)
  simp [directiveHitF, h1, h2, h3, hs, hn, hpos]

/-- A `s-maxage=` directive with a parseable positive count makes the
cache store's loop return that many seconds. -/
lemma directiveHitC_smaxage {d : String} {n : Int}
    (hs : strStarts (goTrimSpace d) "s-maxage=" = true)
    (hn : goAtoi (strDropStart (goTrimSpace d) "s-maxage=") = some n)
    (hpos : 0 < n) :
    directiveHitC d = some (durSeconds n) := by
  have h1 : goTrimSpace d ≠ "no-store" := by
    intro he; rw [he] at hs; exact absurd hs (by decide)
  have h2 : goTrimSpace d ≠ "private" := by
    intro he; rw [he] at hs; exact absurd hs (by decide)
  have h3 : goTrimSpace d ≠ "no-cache" := by
    intro he; rw [he] at hs; exact absurd hs (by decide)
  simp [directiveHitC, h1, h2, h3, hs, hn, hpos]

/-- The frontend and cache-store loops fire on exactly the same
directives (they differ only in the sentinel values returned). -/
lemma directiveHit_none_iff (d : String) :
    directiveHitF d = none ↔ directiveHitC d = none := by
  simp only [directiveHitF, directiveHitC]
  split_ifs <;> simp

/-- Inert directives at the front of the list do not change the scan
(frontend copy). -/
lemma scanDirectivesF_append_none {pre : List String} (rest : List String)
    (h : ∀ x ∈ pre, directiveHitF x = none) :
    scanDirectivesF (pre ++ rest) = scanDirectivesF rest := by
  induction pre with
  | nil => rfl
  | cons d ds ih =>
    have hd : directiveHitF d = none := h d (List.mem_cons_self d ds)
    have hds : ∀ x ∈ ds, directiveHitF x = none :=
      fun x hx => h x (List.mem_cons_of_mem d hx)
    simp only [List.cons_append, scanDirectivesF, hd]
    exact ih hds

/-- Inert directives at the front of the list do not change the scan
(cache-store copy). -/
lemma scanDirectivesC_append_none {pre : List String} (rest : List String)
    (h : ∀ x ∈ pre, directiveHitC x = none) :
    scanDirectivesC (pre ++ rest) = scanDirectivesC rest := by
  induction pre with
  | nil => rfl
  | cons d ds ih =>
    have hd : directiveHitC d = none := h d (List.mem_cons_self d ds)
    have hds : ∀ x ∈ ds, directiveHitC x = none :=
      fun x hx => h x (List.mem_cons_of_mem d hx)
    simp only [List.cons_append, scanDirectivesC, hd]
    exact ih hds

/-- A firing directive at the head of the list decides the scan
(frontend copy). -/
lemma scanDirectivesF_cons_some {d : String} {t : Int} (rest : List String)
    (h : directiveHitF d = some t) :
    scanDirectivesF (d :: rest) = some t := by
  simp [scanDirectivesF, h]

/-- A firing directive at the head of the list decides the scan
(cache-store copy). -/
lemma scanDirectivesC_cons_some {d : String} {t : Int} (rest : List String)
    (h : directiveHitC d = some t) :
    scanDirectivesC (d :: rest) = some t := by
  simp [scanDirectivesC, h]

/-- The two scans fall through on exactly the same directive lists. -/
lemma scanDirectives_none_iff (l : List String) :
    scanDirectivesF l = none ↔ scanDirectivesC l = none := by
  induction l with
  | nil => simp [scanDirectivesF, scanDirectivesC]
  | cons d ds ih =>
    rcases hF : directiveHitF d with _ | t
    · have hC : directiveHitC d = none := (directiveHit_none_iff d).mp hF
      simp [scanDirectivesF, scanDirectivesC, hF, hC, ih]
    · rcases hC : directiveHitC d with _ | u
      · have := (directiveHit_none_iff d).mpr hC
        rw [this] at hF; cases hF
      · simp [scanDirectivesF, scanDirectivesC, hF, hC]

/-- When the `Cache-Control` scan fires, it decides the frontend
calculator's result, whatever the time is. -/
lemma frontendCalculateTTL_of_scan {headers : Header} {t : Int} (now : Int)
    (h : scanDirectivesF (goSplitComma (hGet headers "Cache-Control")) =
      some t) :
    frontendCalculateTTL headers now = t := by
  have hcc : ¬ hGet headers "Cache-Control" = "" := by
    intro he
    rw [he] at h
    have h0 : scanDirectivesF (goSplitComma "") = none := by decide
    rw [h0] at h
    cases h
  simp [frontendCalculateTTL, hcc, h]

/-- When the `Cache-Control` scan fires, it decides the cache-store
calculator's result, whatever the time is. -/
lemma cacheCalculateTTL_of_scan {headers : Header} {t : Int} (now : Int)
    (h : scanDirectivesC (goSplitComma (hGet headers "Cache-Control")) =
      some t) :
    cacheCalculateTTL headers now = t := by
  have hcc : ¬ hGet headers "Cache-Control" = "" := by
    intro he
    rw [he] at h
    have h0 : scanDirectivesC (goSplitComma "") = none := by decide
    rw [h0] at h
    cases h
  simp [cacheCalculateTTL, hcc, h]

/-- The `Expires`/`Age` phase does not depend on the time when the
`Expires` header is absent or fails to parse. -/
lemma expiresPhase_time_indep {headers : Header} (t1 t2 e df : Int)
    (h : hGet headers "Expires" = "" ∨
      parseExpires (hGet headers "Expires") = none) :
    expiresPhase headers t1 e df = expiresPhase headers t2 e df := by
  unfold expiresPhase
  rcases h with h | h <;> simp [h]

/-- When neither header decides, the frontend calculator returns its
5-minute default. -/
lemma frontendCalculateTTL_default {headers : Header} (now : Int)
    (hcc : scanDirectivesF (goSplitComma (hGet headers "Cache-Control")) =
      none)
    (hexp : hGet headers "Expires" = "" ∨
      parseExpires (hGet headers "Expires") = none) :
    frontendCalculateTTL headers now = frontendDefaultTTL := by
  unfold frontendCalculateTTL expiresPhase
  by_cases hc : hGet headers "Cache-Control" = "" <;>
    rcases hexp with he | he <;> simp [hc, hcc, he]

/-- When neither header decides, the cache-store calculator returns `0`
(the "default cache behaviour, no expiration" sentinel). -/
lemma cacheCalculateTTL_default {headers : Header} (now : Int)
    (hcc : scanDirectivesC (goSplitComma (hGet headers "Cache-Control")) =
      none)
    (hexp : hGet headers "Expires" = "" ∨
      parseExpires (hGet headers "Expires") = none) :
    cacheCalculateTTL headers now = 0 := by
  unfold cacheCalculateTTL expiresPhase
  by_cases hc : hGet headers "Cache-Control" = "" <;>
    rcases hexp with he | he <;> simp [hc, hcc, he]

/-- The frontend calculator is time-independent when the `Expires`
header is absent or unparseable (the scan outcome never depends on the
time). -/
lemma frontendCalculateTTL_time_indep (headers : Header) (t1 t2 : Int)
    (h : hGet headers "Expires" = "" ∨
      parseExpires (hGet headers "Expires") = none) :
    frontendCalculateTTL headers t1 = frontendCalculateTTL headers t2 := by
  by_cases hc : hGet headers "Cache-Control" = ""
  · simp [frontendCalculateTTL, hc, expiresPhase_time_indep t1 t2 0
      frontendDefaultTTL h]
  · rcases hs : scanDirectivesF
        (goSplitComma (hGet headers "Cache-Control")) with _ | t
    · simp [frontendCalculateTTL, hc, hs, expiresPhase_time_indep t1 t2 0
        frontendDefaultTTL h]
    · simp [frontendCalculateTTL, hc, hs]

/-- The cache-store calculator is time-independent when the `Expires`
header is absent or unparseable. -/
lemma cacheCalculateTTL_time_indep (headers : Header) (t1 t2 : Int)
    (h : hGet headers "Expires" = "" ∨
      parseExpires (hGet headers "Expires") = none) :
    cacheCalculateTTL headers t1 = cacheCalculateTTL headers t2 := by
  by_cases hc : hGet headers "Cache-Control" = ""
  · simp [cacheCalculateTTL, hc, expiresPhase_time_indep t1 t2 (-1) 0 h]
  · rcases hs : scanDirectivesC
        (goSplitComma (hGet headers "Cache-Control")) with _ | t
    · simp [cacheCalculateTTL, hc, hs, expiresPhase_time_indep t1 t2 (-1)
        0 h]
    · simp [cacheCalculateTTL, hc, hs]

/-! ## Helper lemmas about the dispatcher and the hash -/

/-- The cacheable handler never inserts when the fetch failed. -/
lemma cacheableHandler_fetchFail_insert (lookup : Option ObjCore)
    (beResp : Response) (bodyOk : Bool) (now : Int) :
    (cacheableHandler lookup beResp false bodyOk now).cacheInsert = none := by
  cases lookup <;> cases bodyOk <;> simp [cacheableHandler]

/-- The cacheable handler performs exactly one cache lookup. -/
lemma cacheableHandler_gets (lookup : Option ObjCore) (beResp : Response)
    (fetchOk bodyOk : Bool) (now : Int) :
    (cacheableHandler lookup beResp fetchOk bodyOk now).cacheGets = 1 := by
  cases lookup <;> cases bodyOk <;> cases fetchOk <;>
    simp only [cacheableHandler] <;> split_ifs <;> rfl

/-- Every SHA-256 digest has 32 bytes. -/
lemma sha256_length (msg : List Nat) : (sha256 msg).length = 32 := by
  simp [sha256, wordBE]

/-! ## Helper lemmas for the capacity model -/

/-- After evicting, the new item fits within both budgets (given that
it could ever fit). -/
lemma evictFor_fits (maxObj maxSize cost : Nat) (l : List ModelEntry)
    (hc : cost ≤ maxSize) (ho : 1 ≤ maxObj) :
    totalCost (evictFor maxObj maxSize cost l) + cost ≤ maxSize ∧
    (evictFor maxObj maxSize cost l).length + 1 ≤ maxObj := by
  induction l with
  | nil =>
    constructor
    · simpa [evictFor, totalCost] using hc
    · simpa [evictFor] using ho
  | cons e rest ih =>
    by_cases h : totalCost (e :: rest) + cost ≤ maxSize ∧
        (e :: rest).length + 1 ≤ maxObj
    · rw [evictFor, if_pos h]; exact h
    · rw [evictFor, if_neg h]; exact ih

/-- A modelled `Set` call preserves the capacity invariant. -/
lemma modelSet_inv {s : ModelStore} (k : Nat) (b : List Nat)
    (h : storeInv s) : storeInv (modelSet s k b) := by
  unfold modelSet
  by_cases hc : b.length ≤ s.maxSize ∧ 1 ≤ s.maxObj
  · rw [if_pos hc]
    have hf := evictFor_fits s.maxObj s.maxSize b.length
      (s.entries.filter (fun e => e.key ≠ k)) hc.1 hc.2
    constructor
    · simp only [totalCost, List.map_cons, List.sum_cons]
      have := hf.1
      simp only [totalCost] at this
      omega
    · simp only [List.length_cons]
      exact hf.2
  · rw [if_neg hc]; exact h

/-- A sequence of modelled `Set` calls preserves the invariant. -/
lemma runOps_inv (ops : List SetOp) (s : ModelStore) (h : storeInv s) :
    storeInv (runOps ops s) := by
  induction ops generalizing s with
  | nil => exact h
  | cons op rest ih => exact ih _ (modelSet_inv op.key op.body h)

/-- Running operations never changes the configured budgets. -/
lemma runOps_limits (ops : List SetOp) (s : ModelStore) :
    (runOps ops s).maxObj = s.maxObj ∧
    (runOps ops s).maxSize = s.maxSize := by
  induction ops generalizing s with
  | nil => exact ⟨rfl, rfl⟩
  | cons op rest ih =>
    have hstep : (modelSet s op.key op.body).maxObj = s.maxObj ∧
        (modelSet s op.key op.body).maxSize = s.maxSize := by
      unfold modelSet; split_ifs <;> exact ⟨rfl, rfl⟩
    have h2 := ih (modelSet s op.key op.body)
    exact ⟨h2.1.trans hstep.1, h2.2.trans hstep.2⟩

/-! ## Claim theorems -/

/-- C1 (counterexample): the claim says any of `no-store`, `private`,
`no-cache` yields the DoNotCache decision regardless of the other
directives and of their order.  It fails: with
`Cache-Control: max-age=3600, no-store` the loop hits the valid
`max-age` directive first and returns 3600 seconds — not the frontend's
DoNotCache sentinel `0`, nor the cache-store copy's `-1`. -/
theorem calculateTTL_order_defeats_no_store :
    frontendCalculateTTL [("Cache-Control", ["max-age=3600, no-store"])] 0 =
      3600000000000 ∧
    cacheCalculateTTL [("Cache-Control", ["max-age=3600, no-store"])] 0 =
      3600000000000 ∧
    (3600000000000 : Int) ≠ 0 ∧ (3600000000000 : Int) ≠ -1 := by
  refine ⟨by decide, by decide, by decide, by decide⟩

/-- C1 (amended): a directive trimming to `no-store`, `private` or
`no-cache` yields the DoNotCache decision (frontend sentinel `0`,
cache-store sentinel `-1`) provided no earlier directive in the
`Cache-Control` list already produced a decision — the loop returns at
the first matching directive, so a valid positive `max-age`/`s-maxage`
appearing earlier in the list wins instead. -/
theorem calculateTTL_doNotCache_when_blocking_first (headers : Header)
    (now : Int) (pre post : List String) (d : String)
    (hsplit : goSplitComma (hGet headers "Cache-Control") =
      pre ++ d :: post)
    (hpre : ∀ x ∈ pre, directiveHitF x = none)
    (hd : goTrimSpace d = "no-store" ∨ goTrimSpace d = "private" ∨
      goTrimSpace d = "no-cache") :
    frontendCalculateTTL headers now = 0 ∧
    cacheCalculateTTL headers now = -1 := by
  constructor
  · apply frontendCalculateTTL_of_scan now
    rw [hsplit, scanDirectivesF_append_none _ hpre]
    exact scanDirectivesF_cons_some _ (directiveHitF_blocking hd)
  · apply cacheCalculateTTL_of_scan now
    have hpreC : ∀ x ∈ pre, directiveHitC x = none :=
      fun x hx => (directiveHit_none_iff x).mp (hpre x hx)
    rw [hsplit, scanDirectivesC_append_none _ hpreC]
    exact scanDirectivesC_cons_some _ (directiveHitC_blocking hd)

/-- Witness for C1 (amended): `Cache-Control: no-store, max-age=3600`
is rejected by both calculators. -/
theorem calculateTTL_doNotCache_when_blocking_first_witness :
    frontendCalculateTTL [("Cache-Control", ["no-store, max-age=3600"])] 0 =
      0 ∧
    cacheCalculateTTL [("Cache-Control", ["no-store, max-age=3600"])] 0 =
      -1 :=
  calculateTTL_doNotCache_when_blocking_first
    [("Cache-Control", ["no-store, max-age=3600"])] 0 []
    [" max-age=3600"] "no-store" (by decide) (by simp)
    (Or.inl (by decide))

/-- C2 (counterexample): the claim says `s-maxage` beats `max-age`
no matter which directive comes first.  It fails: with
`Cache-Control: max-age=3600, s-maxage=60` both calculators return
3600 seconds (the `max-age` hit), not the 60 seconds of `s-maxage`. -/
theorem calculateTTL_maxage_first_beats_smaxage :
    frontendCalculateTTL [("Cache-Control", ["max-age=3600, s-maxage=60"])]
      0 = 3600000000000 ∧
    cacheCalculateTTL [("Cache-Control", ["max-age=3600, s-maxage=60"])]
      0 = 3600000000000 ∧
    (3600000000000 : Int) ≠ durSeconds 60 := by
  refine ⟨by decide, by decide, by decide⟩

/-- C2 (amended): a `s-maxage=N` directive with positive integer `N`
yields ExplicitTTL(`N` seconds) provided it precedes every other
deciding directive in the `Cache-Control` list; directive order does
matter — whichever valid `s-maxage`/`max-age` directive comes first in
the header wins. -/
theorem calculateTTL_smaxage_wins_when_first (headers : Header)
    (now : Int) (pre post : List String) (d : String) (n : Int)
    (hsplit : goSplitComma (hGet headers "Cache-Control") =
      pre ++ d :: post)
    (hpre : ∀ x ∈ pre, directiveHitF x = none)
    (hs : strStarts (goTrimSpace d) "s-maxage=" = true)
    (hn : goAtoi (strDropStart (goTrimSpace d) "s-maxage=") = some n)
    (hpos : 0 < n) :
    frontendCalculateTTL headers now = durSeconds n ∧
    cacheCalculateTTL headers now = durSeconds n := by
  constructor
  · apply frontendCalculateTTL_of_scan now
    rw [hsplit, scanDirectivesF_append_none _ hpre]
    exact scanDirectivesF_cons_some _ (directiveHitF_smaxage hs hn hpos)
  · apply cacheCalculateTTL_of_scan now
    have hpreC : ∀ x ∈ pre, directiveHitC x = none :=
      fun x hx => (directiveHit_none_iff x).mp (hpre x hx)
    rw [hsplit, scanDirectivesC_append_none _ hpreC]
    exact scanDirectivesC_cons_some _ (directiveHitC_smaxage hs hn hpos)

/-- Witness for C2 (amended): `Cache-Control: s-maxage=60, max-age=3600`
gives 60 seconds in both calculators. -/
theorem calculateTTL_smaxage_wins_when_first_witness :
    frontendCalculateTTL [("Cache-Control", ["s-maxage=60, max-age=3600"])]
      0 = durSeconds 60 ∧
    cacheCalculateTTL [("Cache-Control", ["s-maxage=60, max-age=3600"])]
      0 = durSeconds 60 :=
  calculateTTL_smaxage_wins_when_first
    [("Cache-Control", ["s-maxage=60, max-age=3600"])] 0 []
    [" max-age=3600"] "s-maxage=60" 60 (by decide) (by simp) (by decide)
    (by decide) (by decide)

/-- C3: `MakeKey` returns a 32-byte SHA-256 digest, computed over the
path alone when `ignoreHost` is true and over host followed by path
(no separator) otherwise; it is a pure function (hence deterministic),
and with `ignoreHost` the key does not depend on the host at all. -/
theorem MakeKey_digest_spec (host path h1 h2 : String) (ig : Bool) :
    (MakeKey host path ig).length = 32 ∧
    MakeKey host path true = sha256 (strBytes path) ∧
    MakeKey host path false = sha256 (strBytes host ++ strBytes path) ∧
    MakeKey h1 path true = MakeKey h2 path true := by
  refine ⟨sha256_length _, ?_, rfl, rfl⟩
  simp [MakeKey]

/-- C4: after any sequence of `Set`/`SetWithTTL` calls against a store
built with budgets `(maxObj, maxSize)`, the aggregate stored cost (sum
of body byte lengths) never exceeds `maxSize` and the object count
never exceeds `maxObj`.  The admission/eviction engine is modelled from
the spec (ristretto is not part of the sources); the repository's own
contribution — every insertion carries cost `len(value.Body)` — is
modelled faithfully in `modelSet`. -/
theorem store_capacity_invariant (maxObj maxSize : Nat)
    (ops : List SetOp) :
    totalCost (runOps ops (modelNew maxObj maxSize)).entries ≤ maxSize ∧
    (runOps ops (modelNew maxObj maxSize)).entries.length ≤ maxObj := by
  have h0 : storeInv (modelNew maxObj maxSize) := by
    constructor <;> simp [modelNew, totalCost]
  have h := runOps_inv ops (modelNew maxObj maxSize) h0
  have hl := runOps_limits ops (modelNew maxObj maxSize)
  unfold storeInv at h
  rw [hl.1, hl.2] at h
  exact ⟨h.1, h.2⟩

/-- C5: when the underlying HTTP call fails (`httpClient.Do` returns an
error, modelled as `none`), `Fetch` propagates no error: it returns
`ok = false` with the synthetic `nuts()` response — status 500, the
fixed diagnostic body and the `X-Backend-Name: nuts` marker header;
when the call succeeds it returns the backend's response with
`ok = true`. -/
theorem Fetch_failure_returns_nuts :
    Fetch none = (nuts, false) ∧
    (∀ r : Response, Fetch (some r) = (r, true)) ∧
    nuts.statusCode = 500 ∧
    hGet nuts.headers "X-Backend-Name" = "nuts" ∧
    hGet nuts.headers "Content-Type" = "text/plain" ∧
    nuts.body =
      strBytes "<html><body><h1>I have a confuse</h1></body></html>" :=
  ⟨rfl, fun _ => rfl, rfl, by decide, by decide, rfl⟩

/-- C6: whatever the method, the lookup result and the body-read
outcome, a request whose backend fetch returned `ok = false` never
causes a cache insertion, and on the miss path the synthetic response
is still written to the client with its own status code. -/
theorem failed_fetch_never_cached (method : String)
    (lookup : Option ObjCore) (beResp : Response) (bodyReadOk : Bool)
    (now : Int) :
    (ServeHTTP method lookup beResp false bodyReadOk now).cacheInsert =
      none ∧
    (cacheableHandler none beResp false true now).status =
      beResp.statusCode := by
  constructor
  · unfold ServeHTTP
    split_ifs <;>
      first
        | exact cacheableHandler_fetchFail_insert lookup beResp bodyReadOk now
        | rfl
  · rfl

/-- C8: only GET and HEAD take the cacheable path — any other method is
handled by the pass-through path, which performs no cache lookup, no
cache insertion and no TTL computation, while GET and HEAD always
perform the cache lookup. -/
theorem method_dispatch_cache_isolation (method : String)
    (lookup : Option ObjCore) (beResp : Response)
    (fetchOk bodyReadOk : Bool) (now : Int)
    (h1 : method ≠ "GET") (h2 : method ≠ "HEAD") :
    (ServeHTTP method lookup beResp fetchOk bodyReadOk now).cacheGets =
      0 ∧
    (ServeHTTP method lookup beResp fetchOk bodyReadOk now).cacheInsert =
      none ∧
    (ServeHTTP method lookup beResp fetchOk bodyReadOk now).ttlComputed =
      false ∧
    (ServeHTTP "GET" lookup beResp fetchOk bodyReadOk now).cacheGets = 1 ∧
    (ServeHTTP "HEAD" lookup beResp fetchOk bodyReadOk now).cacheGets =
      1 := by
  have hd : ServeHTTP method lookup beResp fetchOk bodyReadOk now =
      defaultMethodHandler beResp := by
    unfold ServeHTTP
    rw [if_neg h1, if_neg h2]
  rw [hd]
  refine ⟨rfl, rfl, rfl, ?_, ?_⟩
  · show (cacheableHandler lookup beResp fetchOk bodyReadOk now).cacheGets
      = 1
    exact cacheableHandler_gets lookup beResp fetchOk bodyReadOk now
  · show (cacheableHandler lookup beResp fetchOk bodyReadOk now).cacheGets
      = 1
    exact cacheableHandler_gets lookup beResp fetchOk bodyReadOk now

/-- Witness for C8: a POST request takes the pass-through path. -/
theorem method_dispatch_cache_isolation_witness :
    (ServeHTTP "POST" none nuts true true 0).cacheGets = 0 ∧
    (ServeHTTP "POST" none nuts true true 0).cacheInsert = none ∧
    (ServeHTTP "POST" none nuts true true 0).ttlComputed = false ∧
    (ServeHTTP "GET" none nuts true true 0).cacheGets = 1 ∧
    (ServeHTTP "HEAD" none nuts true true 0).cacheGets = 1 :=
  method_dispatch_cache_isolation "POST" none nuts true true 0
    (by decide) (by decide)

/-- C10: a cache hit is always written with status 200 (both for GET
and HEAD), and the entry built on the miss path records only the
cleaned headers and the body — not the origin's status code — so an
entry stored from an origin reply with any status (for example 404) is
later served as HTTP 200. -/
theorem cache_hit_served_with_status_200 (obj : ObjCore)
    (beResp : Response) (fetchOk bodyOk : Bool) (now : Int)
    (hh : Header) (bb : List Nat) (s1 s2 : Nat) :
    (ServeHTTP "GET" (some obj) beResp fetchOk bodyOk now).status = 200 ∧
    (ServeHTTP "HEAD" (some obj) beResp fetchOk bodyOk now).status =
      200 ∧
    (cacheableHandler none ⟨s1, hh, bb⟩ true true now).cacheInsert =
      (cacheableHandler none ⟨s2, hh, bb⟩ true true now).cacheInsert := by
  refine ⟨rfl, rfl, ?_⟩
  simp only [cacheableHandler]
  split_ifs <;> rfl

end Hazelnut
